import Mathlib

/-!
Verification of the zfit HS3 serialization layer
(`src/zfit/serialization/serializer.py`).

The serializer transforms nested JSON-like structures: Python dicts with
string keys, lists, strings, numbers and booleans.  We embed these values
as the mutual inductive family `JValue` / `JFields` / `JList`, where a
`JFields` models a Python dict as an insertion-ordered association list
with unique keys, exactly the ordering semantics Python dicts guarantee.
Numbers are embedded as rationals: the serializer never performs
arithmetic on field values, it only compares them for equality, and any
injective encoding of the source's floats preserves those comparisons.
-/

mutual
inductive JValue where
  | jstr : String → JValue
  | jnum : Rat → JValue
  | jbool : Bool → JValue
  | jobj : JFields → JValue
  | jarr : JList → JValue

inductive JFields where
  | fnil : JFields
  | fcons : String → JValue → JFields → JFields

inductive JList where
  | lnil : JList
  | lcons : JValue → JList → JList
end

mutual
def JValue.beq : JValue → JValue → Bool
  | .jstr a, .jstr b => a == b
  | .jnum a, .jnum b => a == b
  | .jbool a, .jbool b => a == b
  | .jobj a, .jobj b => JFields.beq a b
  | .jarr a, .jarr b => JList.beq a b
  | _, _ => false
termination_by structural a _ => a

def JFields.beq : JFields → JFields → Bool
  | .fnil, .fnil => true
  | .fcons k v r, .fcons k2 v2 r2 => k == k2 && JValue.beq v v2 && JFields.beq r r2
  | _, _ => false
termination_by structural a _ => a

def JList.beq : JList → JList → Bool
  | .lnil, .lnil => true
  | .lcons v r, .lcons v2 r2 => JValue.beq v v2 && JList.beq r r2
  | _, _ => false
termination_by structural a _ => a
end

mutual
theorem JValue.beq_iff_eq_val : ∀ a b : JValue, JValue.beq a b = true ↔ a = b
  | .jstr _, .jstr _ => by simp [JValue.beq]
  | .jnum _, .jnum _ => by simp [JValue.beq]
  | .jbool _, .jbool _ => by simp [JValue.beq]
  | .jobj a, .jobj b => by simp [JValue.beq, JFields.beq_iff_eq_fields a b]
  | .jarr a, .jarr b => by simp [JValue.beq, JList.beq_iff_eq_list a b]
  | .jstr _, .jnum _ => by simp [JValue.beq]
  | .jstr _, .jbool _ => by simp [JValue.beq]
  | .jstr _, .jobj _ => by simp [JValue.beq]
  | .jstr _, .jarr _ => by simp [JValue.beq]
  | .jnum _, .jstr _ => by simp [JValue.beq]
  | .jnum _, .jbool _ => by simp [JValue.beq]
  | .jnum _, .jobj _ => by simp [JValue.beq]
  | .jnum _, .jarr _ => by simp [JValue.beq]
  | .jbool _, .jstr _ => by simp [JValue.beq]
  | .jbool _, .jnum _ => by simp [JValue.beq]
  | .jbool _, .jobj _ => by simp [JValue.beq]
  | .jbool _, .jarr _ => by simp [JValue.beq]
  | .jobj _, .jstr _ => by simp [JValue.beq]
  | .jobj _, .jnum _ => by simp [JValue.beq]
  | .jobj _, .jbool _ => by simp [JValue.beq]
  | .jobj _, .jarr _ => by simp [JValue.beq]
  | .jarr _, .jstr _ => by simp [JValue.beq]
  | .jarr _, .jnum _ => by simp [JValue.beq]
  | .jarr _, .jbool _ => by simp [JValue.beq]
  | .jarr _, .jobj _ => by simp [JValue.beq]

theorem JFields.beq_iff_eq_fields : ∀ a b : JFields, JFields.beq a b = true ↔ a = b
  | .fnil, .fnil => by simp [JFields.beq]
  | .fcons _ v r, .fcons _ v2 r2 => by
    simp [JFields.beq, JValue.beq_iff_eq_val v v2, JFields.beq_iff_eq_fields r r2, and_assoc]
  | .fnil, .fcons _ _ _ => by simp [JFields.beq]
  | .fcons _ _ _, .fnil => by simp [JFields.beq]

theorem JList.beq_iff_eq_list : ∀ a b : JList, JList.beq a b = true ↔ a = b
  | .lnil, .lnil => by simp [JList.beq]
  | .lcons v r, .lcons v2 r2 => by
    simp [JList.beq, JValue.beq_iff_eq_val v v2, JList.beq_iff_eq_list r r2]
  | .lnil, .lcons _ _ => by simp [JList.beq]
  | .lcons _ _, .lnil => by simp [JList.beq]
end

instance : DecidableEq JValue := fun a b =>
  decidable_of_iff (JValue.beq a b = true) (JValue.beq_iff_eq_val a b)

instance : DecidableEq JFields := fun a b =>
  decidable_of_iff (JFields.beq a b = true) (JFields.beq_iff_eq_fields a b)

instance : DecidableEq JList := fun a b =>
  decidable_of_iff (JList.beq a b = true) (JList.beq_iff_eq_list a b)

/-- Python `k in d` on a dict. -/
def JFields.hasKey : JFields → String → Bool
  | .fnil, _ => false
  | .fcons k _ r, key => k == key || JFields.hasKey r key

/-- Python `d.get(k)` (and `d[k]` at call sites where the key is present). -/
def JFields.lookup : JFields → String → Option JValue
  | .fnil, _ => none
  | .fcons k v r, key => if k == key then some v else JFields.lookup r key

/-- Python `d[k] = v`: overwrites in place when the key exists
(keeping its position), appends at the end otherwise. -/
def JFields.setKey : JFields → String → JValue → JFields
  | .fnil, key, v => .fcons key v .fnil
  | .fcons k w r, key, v =>
    if k == key then .fcons k v r else .fcons k w (JFields.setKey r key v)

/-- Python `del d[k]` on a dict (keys are unique in a dict, so removing
every occurrence agrees with removing the one occurrence). -/
def JFields.delKey : JFields → String → JFields
  | .fnil, _ => .fnil
  | .fcons k w r, key =>
    if k == key then JFields.delKey r key else .fcons k w (JFields.delKey r key)

/-- Python `list(d.keys())`, in insertion order. -/
def JFields.keys : JFields → List String
  | .fnil => []
  | .fcons k _ r => k :: JFields.keys r

/-- Rewrite every value of a dict in place, keys and order unchanged. -/
def JFields.mapVals (f : JValue → JValue) : JFields → JFields
  | .fnil => .fnil
  | .fcons k v r => .fcons k (f v) (JFields.mapVals f r)

/-- Python `list(d.items())`, in insertion order. -/
def JFields.toList : JFields → List (String × JValue)
  | .fnil => []
  | .fcons k v r => (k, v) :: JFields.toList r

/-- The guarded insertion `if k not in d: d[k] = v` used when collecting
variables in `Serializer.to_hs3`. -/
def JFields.addIfAbsent (acc : JFields) (k : String) (v : JValue) : JFields :=
  if acc.hasKey k then acc else acc.setKey k v

/-!
The pattern matcher (`elements_match` / `replace_matching`,
serializer.py lines 396-443).

A replacement table is a Python dict from match keys to replacement
functions, iterated in insertion order.  The match keys used by the
serializer are either a `frozendict` partial pattern whose values may be
Python `None` (the wildcard), or a bare variable-name string.  We embed a
pattern entry value as `Option JValue` with `none` for the wildcard.
-/

inductive MatchKey where
  | kmap : List (String × Option JValue) → MatchKey
  | klit : String → MatchKey

abbrev RTable := List (MatchKey × (JValue → JValue))

/-- The inner loop of `elements_match` for a mapping candidate against a
mapping pattern: every declared key must be present in the candidate; a
declared `None` value matches anything; a declared non-`None` value must
equal the candidate's value; extra candidate keys are ignored. -/
def patMatch (cand : JFields) (pat : List (String × Option JValue)) : Bool :=
  pat.all fun kv =>
    match cand.lookup kv.1 with
    | none => false
    | some v =>
      match kv.2 with
      | none => true
      | some w => v == w

/-- Python `==` between a candidate dict and a `frozendict` pattern (the
`direct_hit` test of `elements_match` when both sides are mappings): equal
key sets and equal values; a `None` pattern value never equals a value of
the serialized-envelope universe. -/
def dictEqPat (cand : JFields) (pat : List (String × Option JValue)) : Bool :=
  (cand.keys.all fun k => pat.any fun kv => kv.1 == k) &&
  (pat.all fun kv =>
    match kv.2 with
    | none => false
    | some w => cand.lookup kv.1 == some w)

/-- The `direct_hit` test `mapping == match` of `elements_match` for one
match key. -/
def directHit (v : JValue) (mk : MatchKey) : Bool :=
  match v, mk with
  | .jobj cand, .kmap pat => dictEqPat cand pat
  | _, .kmap _ => false
  | w, .klit s => w == .jstr s

/-- `elements_match(mapping, replace)` (serializer.py lines 396-423):
walks the table in order; a mapping candidate matches a mapping key by
the partial-pattern rule or by direct equality, any other combination
only by direct equality; the first match wins and its replacement
function is applied.  `none` embeds the Python result `(False, None)`,
`some r` embeds `(True, replacement(mapping))`. -/
def elements_match (mapping : JValue) : RTable → Option JValue
  | [] => none
  | (mk, repl) :: rest =>
    let hit : Bool :=
      match mapping, mk with
      | .jobj cand, .kmap pat => patMatch cand pat || dictEqPat cand pat
      | v, k => directHit v k
    if hit then some (repl mapping) else elements_match mapping rest

mutual
/-- `replace_matching(mapping, replace)` (serializer.py lines 426-443):
test the node itself first; on a match return the replacement without
rescanning it; otherwise rewrite every value of a mapping in place,
rebuild a sequence element-wise, and return any other value unchanged.
Strings are the `jstr` scalar case, matching the explicit exclusion of
`str` from the sequence branch; `ZfitParameter` and tensor values never
occur inside a serialized envelope. -/
def replace_matching (mapping : JValue) (replace : RTable) : JValue :=
  match elements_match mapping replace with
  | some newMap => newMap
  | none =>
    match mapping with
    | .jobj kvs => .jobj (replaceFields kvs replace)
    | .jarr xs => .jarr (replaceList xs replace)
    | v => v
termination_by structural mapping

def replaceFields (kvs : JFields) (replace : RTable) : JFields :=
  match kvs with
  | .fnil => .fnil
  | .fcons k v r => .fcons k (replace_matching v replace) (replaceFields r replace)
termination_by structural kvs

def replaceList (xs : JList) (replace : RTable) : JList :=
  match xs with
  | .lnil => .lnil
  | .lcons v r => .lcons (replace_matching v replace) (replaceList r replace)
termination_by structural xs
end

/-!
The serializer facade (`Serializer`, serializer.py lines 145-390).

An envelope is the three-section structure built by `to_hs3`: `metadata`,
`pdfs` and `variables`.  `variables` is kept as a dict directly because
`from_hs3` and `pre_deserialize` iterate over its entries.
-/

structure Envelope where
  metadata : JValue
  pdfs : JValue
  vars : JFields
deriving DecidableEq

/-- The generic-parameter pattern of `Serializer.post_serialize`:
`frozendict({"name": None, "min": None, "max": None})`. -/
def parameterPattern : List (String × Option JValue) :=
  [("name", none), ("min", none), ("max", none)]

/-- The constant-parameter pattern of `Serializer.post_serialize`:
`frozendict({"name": None, "type": "ConstantParameter", "floating": False})`. -/
def constParamPattern : List (String × Option JValue) :=
  [("name", none), ("type", some (.jstr "ConstantParameter")),
   ("floating", some (.jbool false))]

/-- The forward replacement function
`lambda x: x["name"] if "value_fn" not in x else x`.
Python raises a `KeyError` when `"name"` is absent and a `TypeError` on a
non-mapping; both are unreachable through `elements_match`, whose
patterns only ever match a mapping containing `"name"`, so those branches
return the input unchanged here. -/
def nameIfNotComposed : JValue → JValue
  | .jobj kvs =>
    if kvs.hasKey "value_fn" then .jobj kvs
    else (kvs.lookup "name").getD (.jobj kvs)
  | v => v

/-- The first forward replacement table of `Serializer.post_serialize`. -/
def replaceForward1 : RTable := [(.kmap parameterPattern, nameIfNotComposed)]

/-- The second forward replacement table of `Serializer.post_serialize`. -/
def replaceForward2 : RTable := [(.kmap constParamPattern, nameIfNotComposed)]

/-- `Serializer.post_serialize` (lines 364-377): the two forward
replacement passes over the `pdfs` section, generic-parameter pattern
first, then the constant-parameter pattern. -/
def Serializer.post_serialize (out : Envelope) : Envelope :=
  { out with
    pdfs := replace_matching (replace_matching out.pdfs replaceForward1)
      replaceForward2 }

/-- The backward replacement table of `Serializer.pre_deserialize`:
one entry per `variables` key, in insertion order, replacing the bare
name string by that variable's full mapping. -/
def replaceBackward (vars : JFields) : RTable :=
  vars.toList.map fun kv => (.klit kv.1, fun _ => kv.2)

/-- `Serializer.pre_deserialize` (lines 379-386): deep-copies the
envelope (a no-op in this functional embedding) and applies the backward
replacement pass to the `pdfs` section. -/
def Serializer.pre_deserialize (out : Envelope) : Envelope :=
  { out with pdfs := replace_matching out.pdfs (replaceBackward out.vars) }

/-- The type-stamping applied to one `variables` entry by the first pass
of `Serializer.from_hs3` (lines 331-340): presence of `"value"` makes a
parameter, constant exactly when `paramdict.get("floating", True) is
False`; presence of `"value_fn"` makes a composed parameter; anything
else is a space.  `paramdict["type"] = ...` overwrites an existing
`"type"` key in place or appends one. -/
def inferTypeFields (kvs : JFields) : JFields :=
  if kvs.hasKey "value" then
    if kvs.lookup "floating" == some (.jbool false) then
      kvs.setKey "type" (.jstr "ConstantParameter")
    else
      kvs.setKey "type" (.jstr "Parameter")
  else if kvs.hasKey "value_fn" then
    kvs.setKey "type" (.jstr "ComposedParameter")
  else
    kvs.setKey "type" (.jstr "Space")

/-- Stamp one `variables` entry.  Every entry of a serialized envelope is
a mapping; Python raises on anything else, which we embed as identity. -/
def stampEntry : JValue → JValue
  | .jobj kvs => .jobj (inferTypeFields kvs)
  | v => v

/-- The first pass of `Serializer.from_hs3`: stamp every `variables`
entry, in place, in the caller's envelope. -/
def stampVariables (vars : JFields) : JFields :=
  vars.mapVals stampEntry

/-- The observable effect of `Serializer.from_hs3` on the caller's
envelope.  The first pass (lines 331-340) mutates the nested
`variables` dicts of the argument itself; only afterwards does
`pre_deserialize` (line 381) take the deep copy on which every later
step works, and the returned mapping is built from fresh dicts (lines
344-353), so the type stamping is the only mutation that reaches the
caller's object. -/
def from_hs3_input_after (load : Envelope) : Envelope :=
  { load with vars := stampVariables load.vars }

/-!
The type registry (`Serializer.register`, serializer.py lines 160-187).

A representation class is identified by its domain implementation class
(`repr._implementation`) and its discriminator tag
(`repr.__fields__["hs3_type"].default`); classes are embedded by name.
The category collections of `Types.register_repr` are only appended to
after both duplicate checks have passed and play no role in the
duplicate-registration contract, so they are not modelled here.
-/

structure ReprSchema where
  implementation : String
  hs3_type : String
  serializable : Bool
deriving DecidableEq

structure Registry where
  constructor_repr : List (String × ReprSchema)
  type_repr : List (String × ReprSchema)
deriving DecidableEq

inductive RegisterError where
  | notSerializable : RegisterError
  | duplicateClass : RegisterError
  | duplicateTag : RegisterError
deriving DecidableEq

/-- Python `k in d` for the registry dicts. -/
def hasEntry (d : List (String × ReprSchema)) (k : String) : Bool :=
  d.any fun kv => kv.1 == k

/-- `Serializer.register` (lines 160-187).  The result is the state of
the two lookup dicts after the call together with the raised error, if
any: Python raises `TypeError` when the implementation is not
`ZfitSerializable`, `ValueError` ("Class ... already registered") on a
duplicate domain class, and `ValueError` ("Type ... already registered")
on a duplicate discriminator tag -- but the duplicate-class insertion
into `constructor_repr` at line 175 has already happened when the tag
check at line 182 fails. -/
def Serializer.register (reg : Registry) (r : ReprSchema) :
    Registry × Option RegisterError :=
  if !r.serializable then (reg, some .notSerializable)
  else if hasEntry reg.constructor_repr r.implementation then
    (reg, some .duplicateClass)
  else
    let reg1 : Registry :=
      { reg with constructor_repr := reg.constructor_repr ++ [(r.implementation, r)] }
    if hasEntry reg1.type_repr r.hs3_type then (reg1, some .duplicateTag)
    else
      ({ reg1 with type_repr := reg1.type_repr ++ [(r.hs3_type, r)] }, none)

/-!
`Serializer.to_hs3` (serializer.py lines 205-296).

A `Model` embeds one serializable PDF as `to_hs3` observes it: its
`name`, the dict produced by `pdf.get_repr().from_orm(pdf).dict(...)`
(with shared parameter and space sub-objects still inlined), the list
`pdf.get_params(floating=None, extract_independent=None)` where each
parameter carries its own serialized dict and its
`isinstance(param, ComposedParameter)` flag, the observable names
`pdf.obs`, and for each observable the dict of
`pdf.space.with_obs(ob).get_repr().from_orm(space).dict(...)`.
The `ZfitPDF` / `ZfitSerializable` checks of lines 253-258 hold for
every `Model` by construction.
-/

structure Param where
  name : String
  fields : JFields
  isComposed : Bool

structure Model where
  name : String
  reprJ : JValue
  params : List Param
  obs : List String
  spaceFields : String → JFields

/-- The input of `to_hs3`: a single PDF, a sequence of PDFs, or a
mapping (which is rejected). -/
inductive ToHS3Input where
  | one : Model → ToHS3Input
  | several : List Model → ToHS3Input
  | mapping : JFields → ToHS3Input

/-- The errors of `to_hs3` reachable in this embedding: both mapping
branches raise `ValueError` (lines 242 and 246), the spec's
`FormatConfusionError`; the flag records which of the two messages was
chosen ("already in HS3 format" when the mapping is envelope-shaped). -/
inductive SerError where
  | formatConfusion : Bool → SerError
deriving DecidableEq

/-- The envelope-shape test of lines 236-240: `"pdfs" in obj and
isinstance(obj["pdfs"], Mapping) and "variables" in obj and
"metadata" in obj`. -/
def isHS3Shaped (m : JFields) : Bool :=
  m.hasKey "pdfs" &&
  (match m.lookup "pdfs" with
   | some (.jobj _) => true
   | _ => false) &&
  m.hasKey "variables" && m.hasKey "metadata"

/-- Stands in for the installed `zfit.__version__` string stamped into
`metadata`; its value is irrelevant to every claim. -/
def zfitVersionString : String := "0.10.2.dev9+gfc70df47"

/-- The `metadata` section built at lines 262-265. -/
def metadataJ : JValue :=
  .jobj (.fcons "HS3" (.jobj (.fcons "version" (.jstr "experimental") .fnil))
    (.fcons "serializer"
      (.jobj (.fcons "lib" (.jstr "zfit")
        (.fcons "version" (.jstr zfitVersionString) .fnil))) .fnil))

/-- Python `str(range(0, n))`, the suffix actually produced by
`f"{name}_{pdf_number}"` at line 273, `pdf_number` being the range
object `range(len(pdfs))` created at line 269. -/
def rangeStr (n : Nat) : String :=
  "range(0, " ++ toString n ++ ")"

/-- One iteration of the parameter walk of lines 277-285: composed
parameters are skipped, every other parameter is added under its name
unless already present, with `"type"` deleted from its dict. -/
def paramStep (acc : JFields) (p : Param) : JFields :=
  if p.isComposed then acc
  else acc.addIfAbsent p.name (.jobj (p.fields.delKey "type"))

/-- The parameter walk of lines 277-285. -/
def addParams (vars : JFields) (ps : List Param) : JFields :=
  ps.foldl paramStep vars

/-- One iteration of the observable walk of lines 287-292: the
observable's space is added under the observable name unless already
present, with `"type"` deleted from its dict. -/
def spaceStep (m : Model) (acc : JFields) (ob : String) : JFields :=
  acc.addIfAbsent ob (.jobj ((m.spaceFields ob).delKey "type"))

/-- The observable walk of lines 287-292. -/
def addSpaces (vars : JFields) (m : Model) : JFields :=
  m.obs.foldl (spaceStep m) vars

/-- The whole `variables` contribution of one pdf. -/
def varStep (vars : JFields) (m : Model) : JFields :=
  addSpaces (addParams vars m.params) m

/-- One iteration of the pdf loop of lines 270-292: insert the pdf's
representation under its (possibly suffixed) key, then collect its
parameters and spaces into `variables`. -/
def pdfStep (total : Nat) (acc : JFields × JFields) (m : Model) :
    JFields × JFields :=
  let key := if acc.1.hasKey m.name then m.name ++ "_" ++ rangeStr total else m.name
  (acc.1.setKey key m.reprJ, varStep acc.2 m)

/-- The envelope assembled by lines 261-292, before `post_serialize`. -/
def assemble (ms : List Model) : Envelope :=
  let res := ms.foldl (pdfStep ms.length) (JFields.fnil, JFields.fnil)
  { metadata := metadataJ, pdfs := .jobj res.1, vars := res.2 }

/-- `Serializer.to_hs3` (lines 205-296): reject mapping inputs, wrap a
single PDF into a list (`convert_to_container`), assemble the envelope
and apply the forward normalization pass. -/
def Serializer.to_hs3 : ToHS3Input → Except SerError Envelope
  | .mapping m => .error (.formatConfusion (isHS3Shaped m))
  | .one m => .ok (Serializer.post_serialize (assemble [m]))
  | .several ms => .ok (Serializer.post_serialize (assemble ms))

/-!
The literal example envelope of `test_replace_matching`
(src/tests/serialize/test_basics.py lines 262-339): one Gaussian model
with parameters `mu` and `sigma` and domain space `obs`.  Field order
follows the test literal; the float literals are transcribed as exact
decimal rationals.
-/

def muFields : JFields :=
  .fcons "floating" (.jbool true)
    (.fcons "max" (.jnum (mkRat 1 1))
      (.fcons "min" (.jnum (mkRat (-1) 1))
        (.fcons "name" (.jstr "mu")
          (.fcons "step_size" (.jnum (mkRat 1 1000))
            (.fcons "type" (.jstr "Parameter")
              (.fcons "value" (.jnum (mkRat 10000000149011612 100000000000000000))
                .fnil))))))

def sigmaFields : JFields :=
  .fcons "floating" (.jbool true)
    (.fcons "max" (.jnum (mkRat 1 1))
      (.fcons "min" (.jnum (mkRat 0 1))
        (.fcons "name" (.jstr "sigma")
          (.fcons "step_size" (.jnum (mkRat 1 1000))
            (.fcons "type" (.jstr "Parameter")
              (.fcons "value" (.jnum (mkRat 10000000149011612 100000000000000000))
                .fnil))))))

def obsFields : JFields :=
  .fcons "max" (.jnum (mkRat 3 1))
    (.fcons "min" (.jnum (mkRat (-3) 1))
      (.fcons "name" (.jstr "obs")
        (.fcons "type" (.jstr "Space") .fnil)))

def exampleVariables : JFields :=
  .fcons "mu" (.jobj muFields)
    (.fcons "obs" (.jobj obsFields)
      (.fcons "sigma" (.jobj sigmaFields) .fnil))

/-- The `original_dict` of the test: parameter and space dicts inlined
inside the Gauss entry of `pdfs`. -/
def exampleEnvelope : Envelope :=
  { metadata := metadataJ,
    pdfs := .jobj (.fcons "Gauss"
      (.jobj (.fcons "mu" (.jobj muFields)
        (.fcons "sigma" (.jobj sigmaFields)
          (.fcons "type" (.jstr "Gauss")
            (.fcons "x" (.jobj obsFields) .fnil))))) .fnil),
    vars := exampleVariables }

/-- The `target_dict` of the test: the same envelope with the inlined
dicts collapsed to bare name references. -/
def exampleCollapsed : Envelope :=
  { metadata := metadataJ,
    pdfs := .jobj (.fcons "Gauss"
      (.jobj (.fcons "mu" (.jstr "mu")
        (.fcons "sigma" (.jstr "sigma")
          (.fcons "type" (.jstr "Gauss")
            (.fcons "x" (.jstr "obs") .fnil))))) .fnil),
    vars := exampleVariables }



/-! Dictionary lemmas. -/

theorem JFields.lookup_isSome : ∀ (kvs : JFields) (k : String),
    (kvs.lookup k).isSome = kvs.hasKey k
  | .fnil, _ => rfl
  | .fcons k0 _ r, k => by
    by_cases h : k0 = k <;>
      simp [JFields.lookup, JFields.hasKey, h, JFields.lookup_isSome r k]

theorem JFields.hasKey_iff_mem : ∀ (kvs : JFields) (k : String),
    kvs.hasKey k = true ↔ k ∈ kvs.keys
  | .fnil, _ => by simp [JFields.hasKey, JFields.keys]
  | .fcons k0 _ r, k => by
    by_cases h : k0 = k
    · simp [JFields.hasKey, JFields.keys, h]
    · simp [JFields.hasKey, JFields.keys, h, Ne.symm h, JFields.hasKey_iff_mem r k]

theorem JFields.lookup_setKey_self : ∀ (kvs : JFields) (k : String) (v : JValue),
    (kvs.setKey k v).lookup k = some v
  | .fnil, _, _ => by simp [JFields.setKey, JFields.lookup]
  | .fcons k0 _ r, k, v => by
    by_cases h : k0 = k <;>
      simp [JFields.setKey, JFields.lookup, h, JFields.lookup_setKey_self r k v]

theorem JFields.lookup_setKey_other : ∀ (kvs : JFields) (k : String) (v : JValue)
    (k' : String), k' ≠ k → (kvs.setKey k v).lookup k' = kvs.lookup k'
  | .fnil, k, v, k', hne => by
    simp [JFields.setKey, JFields.lookup, Ne.symm hne]
  | .fcons k0 _ r, k, v, k', hne => by
    by_cases h : k0 = k
    · simp [JFields.setKey, JFields.lookup, h, Ne.symm hne]
    · by_cases h' : k0 = k' <;>
        simp [JFields.setKey, JFields.lookup, h, h', hne,
          JFields.lookup_setKey_other r k v k' hne]

theorem JFields.hasKey_setKey_self : ∀ (kvs : JFields) (k : String) (v : JValue),
    (kvs.setKey k v).hasKey k = true
  | .fnil, _, _ => by simp [JFields.setKey, JFields.hasKey]
  | .fcons k0 _ r, k, v => by
    by_cases h : k0 = k <;>
      simp [JFields.setKey, JFields.hasKey, h, JFields.hasKey_setKey_self r k v]

theorem JFields.hasKey_setKey_mono : ∀ (kvs : JFields) (k : String) (v : JValue)
    (k' : String), kvs.hasKey k' = true → (kvs.setKey k v).hasKey k' = true
  | .fnil, _, _, _, hk => by simp [JFields.hasKey] at hk
  | .fcons k0 _ r, k, v, k', hk => by
    by_cases h : k0 = k
    · simp [JFields.setKey, JFields.hasKey, h] at hk ⊢
      exact hk
    · simp [JFields.setKey, JFields.hasKey, h] at hk ⊢
      rcases hk with hk | hk
      · exact Or.inl hk
      · exact Or.inr (JFields.hasKey_setKey_mono r k v k' hk)

theorem JFields.keys_setKey_of_not_hasKey : ∀ (kvs : JFields) (k : String)
    (v : JValue), kvs.hasKey k = false → (kvs.setKey k v).keys = kvs.keys ++ [k]
  | .fnil, _, _, _ => by simp [JFields.setKey, JFields.keys]
  | .fcons k0 _ r, k, v, hk => by
    simp [JFields.hasKey] at hk
    simp [JFields.setKey, JFields.keys, hk.1,
      JFields.keys_setKey_of_not_hasKey r k v hk.2]

theorem JFields.hasKey_addIfAbsent_self (kvs : JFields) (k : String) (v : JValue) :
    (kvs.addIfAbsent k v).hasKey k = true := by
  unfold JFields.addIfAbsent
  by_cases h : kvs.hasKey k = true
  · simp [h]
  · have h' : kvs.hasKey k = false := by simpa using h
    simp [h', JFields.hasKey_setKey_self]

theorem JFields.hasKey_addIfAbsent_mono (kvs : JFields) (k : String) (v : JValue)
    (k' : String) (h : kvs.hasKey k' = true) :
    (kvs.addIfAbsent k v).hasKey k' = true := by
  unfold JFields.addIfAbsent
  by_cases hk : kvs.hasKey k = true
  · simp [hk, h]
  · have hk' : kvs.hasKey k = false := by simpa using hk
    simp [hk', JFields.hasKey_setKey_mono _ _ _ _ h]

theorem JFields.nodup_addIfAbsent (kvs : JFields) (k : String) (v : JValue)
    (h : kvs.keys.Nodup) : (kvs.addIfAbsent k v).keys.Nodup := by
  unfold JFields.addIfAbsent
  by_cases hk : kvs.hasKey k = true
  · simpa [hk]
  · have hk' : kvs.hasKey k = false := by simpa using hk
    rw [if_neg (by simp [hk']), JFields.keys_setKey_of_not_hasKey _ _ _ hk']
    refine List.nodup_append.mpr ⟨h, List.nodup_singleton _, ?_⟩
    intro a ha hb
    rw [List.mem_singleton] at hb
    rw [hb] at ha
    exact absurd ((JFields.hasKey_iff_mem kvs k).mpr ha) (by simp [hk'])

theorem JFields.keys_mapVals : ∀ (f : JValue → JValue) (kvs : JFields),
    (kvs.mapVals f).keys = kvs.keys
  | _, .fnil => rfl
  | f, .fcons _ _ r => by simp [JFields.mapVals, JFields.keys, JFields.keys_mapVals f r]

theorem JFields.lookup_mapVals : ∀ (f : JValue → JValue) (kvs : JFields)
    (k : String), (kvs.mapVals f).lookup k = (kvs.lookup k).map f
  | _, .fnil, _ => rfl
  | f, .fcons k0 _ r, k => by
    by_cases h : k0 = k <;>
      simp [JFields.mapVals, JFields.lookup, h, JFields.lookup_mapVals f r k]

/-! Pattern-matcher lemmas. -/

mutual
theorem replace_matching_empty : ∀ v : JValue, replace_matching v [] = v
  | .jstr _ => by simp [replace_matching, elements_match]
  | .jnum _ => by simp [replace_matching, elements_match]
  | .jbool _ => by simp [replace_matching, elements_match]
  | .jobj kvs => by
    simp [replace_matching, elements_match, replaceFields_empty kvs]
  | .jarr xs => by
    simp [replace_matching, elements_match, replaceList_empty xs]

theorem replaceFields_empty : ∀ kvs : JFields, replaceFields kvs [] = kvs
  | .fnil => by simp [replaceFields]
  | .fcons _ v r => by
    simp [replaceFields, replace_matching_empty v, replaceFields_empty r]

theorem replaceList_empty : ∀ xs : JList, replaceList xs [] = xs
  | .lnil => by simp [replaceList]
  | .lcons v r => by
    simp [replaceList, replace_matching_empty v, replaceList_empty r]
end

/-- A Python `==` hit between a candidate dict and a pattern implies the
partial-pattern match: equality forces every declared key to be present
with a non-wildcard, equal value. -/
theorem patMatch_of_dictEqPat (cand : JFields)
    (pat : List (String × Option JValue)) (h : dictEqPat cand pat = true) :
    patMatch cand pat = true := by
  rw [dictEqPat, Bool.and_eq_true, List.all_eq_true, List.all_eq_true] at h
  rw [patMatch, List.all_eq_true]
  intro kv hkv
  have h2 := h.2 kv hkv
  match hv : kv.2 with
  | none => rw [hv] at h2; exact absurd h2 (by simp)
  | some w =>
    rw [hv] at h2
    have hlook : cand.lookup kv.1 = some w := by
      have := of_decide_eq_true (by simpa using h2)
      simpa using this
    simp [hlook]

/-- A table consisting only of mapping patterns. -/
def kmapTable (prs : List ((List (String × Option JValue)) × (JValue → JValue))) :
    RTable :=
  prs.map fun pr => (.kmap pr.1, pr.2)

theorem elements_match_kmap_isSome (cand : JFields) :
    ∀ prs, (elements_match (.jobj cand) (kmapTable prs)).isSome = true ↔
      ∃ pr ∈ prs, patMatch cand pr.1 = true := by
  intro prs
  induction prs with
  | nil => simp [kmapTable, elements_match]
  | cons pr rest ih =>
    by_cases hp : patMatch cand pr.1 = true
    · simp [kmapTable, elements_match, hp]
    · by_cases hd : dictEqPat cand pr.1 = true
      · exact absurd (patMatch_of_dictEqPat cand pr.1 hd) hp
      · have hp' : patMatch cand pr.1 = false := by simpa using hp
        have hd' : dictEqPat cand pr.1 = false := by simpa using hd
        have hstep : elements_match (.jobj cand) (kmapTable (pr :: rest))
            = elements_match (.jobj cand) (kmapTable rest) := by
          simp [kmapTable, elements_match, hp', hd']
        rw [hstep, ih]
        constructor
        · rintro ⟨q, hq, hmq⟩
          exact ⟨q, List.mem_cons_of_mem _ hq, hmq⟩
        · rintro ⟨q, hq, hmq⟩
          rcases List.mem_cons.mp hq with hq | hq
          · rw [hq] at hmq
            exact absurd hmq hp
          · exact ⟨q, hq, hmq⟩

/-- First match wins: the head pattern's replacement is applied when the
head pattern matches, whatever the rest of the table holds. -/
theorem elements_match_first (cand : JFields)
    (pat : List (String × Option JValue)) (f : JValue → JValue) (rest : RTable)
    (h : patMatch cand pat = true) :
    elements_match (.jobj cand) ((MatchKey.kmap pat, f) :: rest)
      = some (f (.jobj cand)) := by
  simp [elements_match, h]

/-! Concrete candidates used by the pattern-matcher claims. -/

/-- A candidate mapping with `"name"`, `"min"` and `"max"` but no
`"min"`-free shape: `muFields` above already contains the three declared
keys plus the extra keys `floating`, `step_size`, `type` and `value`. -/
def candMissingMin : JFields :=
  .fcons "name" (.jstr "mu")
    (.fcons "max" (.jnum (mkRat 1 1))
      (.fcons "floating" (.jbool true) .fnil))

/-- A composed/derived parameter representation: it carries a
value-producing function under `"value_fn"` while also exposing the
`name`/`min`/`max` shape. -/
def composedCand : JFields :=
  .fcons "name" (.jstr "derived")
    (.fcons "min" (.jnum (mkRat 0 1))
      (.fcons "max" (.jnum (mkRat 1 1))
        (.fcons "value_fn" (.jstr "gASVWg==") .fnil)))

/-- A composed parameter representation that also matches the
constant-parameter shape. -/
def composedConstCand : JFields :=
  .fcons "name" (.jstr "derived")
    (.fcons "type" (.jstr "ConstantParameter")
      (.fcons "floating" (.jbool false)
        (.fcons "value_fn" (.jstr "gASVWg==") .fnil)))

theorem nameIfNotComposed_of_value_fn (kvs : JFields)
    (h : kvs.hasKey "value_fn" = true) :
    nameIfNotComposed (.jobj kvs) = .jobj kvs := by
  simp [nameIfNotComposed, h]

theorem elements_match_single_guard (pat : List (String × Option JValue))
    (kvs : JFields) (h : kvs.hasKey "value_fn" = true) (r : JValue)
    (hr : elements_match (.jobj kvs) [(.kmap pat, nameIfNotComposed)] = some r) :
    r = .jobj kvs := by
  simp only [elements_match] at hr
  split at hr
  · rw [Option.some_inj] at hr
    rw [← hr]
    exact nameIfNotComposed_of_value_fn kvs h
  · exact absurd hr (by simp)

/-- **C2.** `elements_match` matches a mapping candidate against a table
of mapping patterns exactly when some pattern's declared keys are all
present with every non-wildcard value equal, extra candidate keys being
ignored; patterns are tried in table order and the first match's
replacement is applied.  Concretely, the `name`/`min`/`max` wildcard
pattern matches `muFields` (those three keys plus extras) and rejects a
candidate missing `"min"`. -/
theorem elements_match_spec :
    (∀ (cand : JFields) prs,
      (elements_match (.jobj cand) (kmapTable prs)).isSome = true ↔
        ∃ pr ∈ prs, patMatch cand pr.1 = true) ∧
    (∀ (cand : JFields) (pat : List (String × Option JValue))
      (f : JValue → JValue) (rest : RTable), patMatch cand pat = true →
      elements_match (.jobj cand) ((MatchKey.kmap pat, f) :: rest)
        = some (f (.jobj cand))) ∧
    patMatch muFields parameterPattern = true ∧
    (elements_match (.jobj muFields) (kmapTable [(parameterPattern, id)])).isSome
      = true ∧
    patMatch candMissingMin parameterPattern = false ∧
    elements_match (.jobj candMissingMin) (kmapTable [(parameterPattern, id)])
      = none :=
  ⟨elements_match_kmap_isSome, elements_match_first,
    by decide, by decide, by decide, by decide⟩

/-- Witness for C2: the first-match clause applied to `muFields` and the
generic-parameter pattern with the identity replacement. -/
theorem elements_match_spec_witness :
    elements_match (.jobj muFields) ((MatchKey.kmap parameterPattern, id) :: [])
      = some (id (.jobj muFields)) :=
  elements_match_spec.2.1 muFields parameterPattern id [] (by decide)

/-- **C6.** A mapping carrying a `"value_fn"` field is never replaced by
a bare name string by either forward pass of `post_serialize`: whenever
a forward table matches it, the replacement returns it unchanged.  The
guard sits in the replacement function, not in the pattern: the
composed-parameter candidates below do match the generic-parameter and
constant-parameter patterns, yet `replace_matching` leaves them intact. -/
theorem post_serialize_composed_guard :
    (∀ kvs : JFields, kvs.hasKey "value_fn" = true →
      ∀ r, elements_match (.jobj kvs) replaceForward1 = some r → r = .jobj kvs) ∧
    (∀ kvs : JFields, kvs.hasKey "value_fn" = true →
      ∀ r, elements_match (.jobj kvs) replaceForward2 = some r → r = .jobj kvs) ∧
    patMatch composedCand parameterPattern = true ∧
    replace_matching (.jobj composedCand) replaceForward1 = .jobj composedCand ∧
    patMatch composedConstCand constParamPattern = true ∧
    replace_matching (.jobj composedConstCand) replaceForward2
      = .jobj composedConstCand :=
  ⟨fun kvs h r hr => elements_match_single_guard parameterPattern kvs h r hr,
    fun kvs h r hr => elements_match_single_guard constParamPattern kvs h r hr,
    by decide, by decide, by decide, by decide⟩

/-- Witness for C6: both guard clauses applied to the concrete composed
candidates, whose forward matches return the candidate itself. -/
theorem post_serialize_composed_guard_witness :
    nameIfNotComposed (.jobj composedCand) = .jobj composedCand ∧
    nameIfNotComposed (.jobj composedConstCand) = .jobj composedConstCand :=
  ⟨post_serialize_composed_guard.1 composedCand (by decide)
      (nameIfNotComposed (.jobj composedCand)) (by decide),
    post_serialize_composed_guard.2.1 composedConstCand (by decide)
      (nameIfNotComposed (.jobj composedConstCand)) (by decide)⟩

/-- An envelope-shaped mapping: `pdfs` (itself a mapping), `variables`
and `metadata` keys all present. -/
def envShapedMapping : JFields :=
  .fcons "pdfs" (.jobj .fnil)
    (.fcons "variables" (.jobj .fnil)
      (.fcons "metadata" (.jobj .fnil) .fnil))

/-- **C8.** `to_hs3` rejects every mapping input with the
format-confusion error (Python `ValueError`, lines 242/246) before any
envelope is constructed; a mapping shaped like an already-serialized
envelope takes the "already in HS3 format" branch. -/
theorem to_hs3_rejects_mapping_input :
    (∀ m : JFields, Serializer.to_hs3 (.mapping m)
      = .error (.formatConfusion (isHS3Shaped m))) ∧
    Serializer.to_hs3 (.mapping envShapedMapping)
      = .error (.formatConfusion true) ∧
    isHS3Shaped envShapedMapping = true :=
  ⟨fun _ => rfl, rfl, by decide⟩

/-- **C10.** With an empty replacement table no node matches,
so `replace_matching` returns its input unchanged: mappings keep their
keys and values, sequences are rebuilt equal, scalars pass through. -/
theorem replace_matching_empty_table :
    (∀ v : JValue, elements_match v [] = none) ∧
    (∀ v : JValue, replace_matching v ([] : RTable) = v) :=
  ⟨fun _ => rfl, replace_matching_empty⟩

/-- **C1.** On the literal example envelope of `test_replace_matching`
(one Gaussian model, parameters `mu`/`sigma`, domain space `obs`), the
forward pass collapses the inlined parameter/space mappings in `pdfs` to
bare name strings, and the backward pass (replacing each bare name that
is a `variables` key by that variable's full mapping) restores the
original nested structure exactly. -/
theorem forward_backward_example_roundtrip :
    Serializer.post_serialize exampleEnvelope = exampleCollapsed ∧
    Serializer.pre_deserialize exampleCollapsed = exampleEnvelope ∧
    Serializer.pre_deserialize (Serializer.post_serialize exampleEnvelope)
      = exampleEnvelope :=
  ⟨by decide, by decide, by decide⟩

/-- **C4.** The first pass of `from_hs3` stamps every `variables` entry
with a discriminator tag determined by shape: a direct `"value"` with
`floating` exactly `False` gives `ConstantParameter`, a `"value"`
otherwise (`floating` absent or any other value) gives `Parameter`, a
`"value_fn"` gives `ComposedParameter`, anything else gives `Space`. -/
theorem from_hs3_first_pass_tags :
    (∀ (e : Envelope) (n : String),
      (from_hs3_input_after e).vars.lookup n
        = (e.vars.lookup n).map stampEntry) ∧
    (∀ kvs : JFields, stampEntry (.jobj kvs) = .jobj (inferTypeFields kvs)) ∧
    (∀ kvs : JFields,
      (kvs.hasKey "value" = true → kvs.lookup "floating" = some (.jbool false) →
        (inferTypeFields kvs).lookup "type" = some (.jstr "ConstantParameter")) ∧
      (kvs.hasKey "value" = true → kvs.lookup "floating" ≠ some (.jbool false) →
        (inferTypeFields kvs).lookup "type" = some (.jstr "Parameter")) ∧
      (kvs.hasKey "value" = false → kvs.hasKey "value_fn" = true →
        (inferTypeFields kvs).lookup "type" = some (.jstr "ComposedParameter")) ∧
      (kvs.hasKey "value" = false → kvs.hasKey "value_fn" = false →
        (inferTypeFields kvs).lookup "type" = some (.jstr "Space"))) := by
  refine ⟨fun e n => JFields.lookup_mapVals stampEntry e.vars n, fun _ => rfl,
    fun kvs => ⟨?_, ?_, ?_, ?_⟩⟩
  · intro hv hf
    simp [inferTypeFields, hv, hf, JFields.lookup_setKey_self]
  · intro hv hf
    have hf' : (kvs.lookup "floating" == some (JValue.jbool false)) = false := by
      simpa using hf
    simp [inferTypeFields, hv, hf', JFields.lookup_setKey_self]
  · intro hv hfn
    simp [inferTypeFields, hv, hfn, JFields.lookup_setKey_self]
  · intro hv hfn
    simp [inferTypeFields, hv, hfn, JFields.lookup_setKey_self]

/-- Witness for C4: the four shapes at concrete entries.  `muFields` has
a value and `floating: True`; the other shapes are built inline. -/
theorem from_hs3_first_pass_tags_witness :
    (inferTypeFields (.fcons "value" (.jnum (mkRat 1 1))
        (.fcons "floating" (.jbool false) .fnil))).lookup "type"
      = some (.jstr "ConstantParameter") ∧
    (inferTypeFields muFields).lookup "type" = some (.jstr "Parameter") ∧
    (inferTypeFields composedCand).lookup "type"
      = some (.jstr "ComposedParameter") ∧
    (inferTypeFields obsFields).lookup "type" = some (.jstr "Space") :=
  ⟨(from_hs3_first_pass_tags.2.2 _).1 (by decide) (by decide),
    (from_hs3_first_pass_tags.2.2 muFields).2.1 (by decide) (by decide),
    ((from_hs3_first_pass_tags.2.2 composedCand).2.2.1 (by decide) (by decide)),
    ((from_hs3_first_pass_tags.2.2 obsFields).2.2.2 (by decide) (by decide))⟩

/-- A minimal envelope whose single `variables` entry carries a value but
no `"type"` key yet. -/
def bareValueEnvelope : Envelope :=
  { metadata := .jobj .fnil,
    pdfs := .jobj .fnil,
    vars := .fcons "mu" (.jobj (.fcons "value" (.jnum (mkRat 1 1)) .fnil)) .fnil }

/-- **C9, counterexample.** `from_hs3` does not leave the input envelope
unchanged: its first pass stamps a `"type"` key into each `variables`
entry of the caller's envelope before `pre_deserialize` takes the deep
copy, so the envelope observed by the caller after the call differs from
the one passed in. -/
theorem from_hs3_mutates_input :
    from_hs3_input_after bareValueEnvelope ≠ bareValueEnvelope := by decide

/-- **C9, amended.** The type stamping of the first pass is the only
mutation `from_hs3` makes to the caller's envelope: `metadata` and
`pdfs` are untouched, the `variables` key list is unchanged, and inside
each entry every key other than `"type"` keeps its value. -/
theorem from_hs3_input_mutation_only_type :
    (∀ e : Envelope,
      (from_hs3_input_after e).metadata = e.metadata ∧
      (from_hs3_input_after e).pdfs = e.pdfs ∧
      (from_hs3_input_after e).vars.keys = e.vars.keys ∧
      (from_hs3_input_after e).vars = stampVariables e.vars) ∧
    (∀ (kvs : JFields) (k : String), k ≠ "type" →
      (inferTypeFields kvs).lookup k = kvs.lookup k) := by
  constructor
  · intro e
    exact ⟨rfl, rfl, JFields.keys_mapVals stampEntry e.vars, rfl⟩
  · intro kvs k hk
    unfold inferTypeFields
    split
    · split <;> exact JFields.lookup_setKey_other _ _ _ _ hk
    · split <;> exact JFields.lookup_setKey_other _ _ _ _ hk

/-- Witness for C9's amended claim: inside the stamped entry of
`bareValueEnvelope`, the `"value"` field is untouched. -/
theorem from_hs3_input_mutation_only_type_witness :
    (inferTypeFields (.fcons "value" (.jnum (mkRat 1 1)) .fnil)).lookup "value"
      = (JFields.fcons "value" (.jnum (mkRat 1 1)) .fnil).lookup "value" :=
  from_hs3_input_mutation_only_type.2
    (.fcons "value" (.jnum (mkRat 1 1)) .fnil) "value" (by decide)

/-- A registry holding one representation: domain class `GaussImpl`,
discriminator tag `Gauss`. -/
def gaussSchema : ReprSchema :=
  { implementation := "GaussImpl", hs3_type := "Gauss", serializable := true }

/-- A second representation with a fresh domain class but the same
discriminator tag as `gaussSchema`. -/
def clashSchema : ReprSchema :=
  { implementation := "CauchyImpl", hs3_type := "Gauss", serializable := true }

def oneEntryRegistry : Registry :=
  { constructor_repr := [("GaussImpl", gaussSchema)],
    type_repr := [("Gauss", gaussSchema)] }

/-- **C7, counterexample.** Registering a representation whose
discriminator tag collides with an existing one does fail, but the
registry's lookup mappings are not left as they were: the insertion into
`constructor_repr` at line 175 precedes the tag check at line 182, so the
failed call leaves the new domain class registered. -/
theorem register_tag_collision_leaks :
    (Serializer.register oneEntryRegistry clashSchema).2 = some .duplicateTag ∧
    (Serializer.register oneEntryRegistry clashSchema).1.constructor_repr
      ≠ oneEntryRegistry.constructor_repr := by
  constructor
  · decide
  · decide

/-- **C7, amended.** Registering an already-registered domain type fails
with the duplicate error and leaves both lookup mappings exactly as they
were; registering a fresh domain type whose discriminator tag collides
fails with the duplicate error and leaves `type_repr` unchanged, but
`constructor_repr` has already been extended with the new domain type. -/
theorem register_duplicate_contract :
    ∀ (reg : Registry) (r : ReprSchema), r.serializable = true →
      (hasEntry reg.constructor_repr r.implementation = true →
        Serializer.register reg r = (reg, some .duplicateClass)) ∧
      (hasEntry reg.constructor_repr r.implementation = false →
        hasEntry reg.type_repr r.hs3_type = true →
        (Serializer.register reg r).2 = some .duplicateTag ∧
        (Serializer.register reg r).1.type_repr = reg.type_repr ∧
        (Serializer.register reg r).1.constructor_repr
          = reg.constructor_repr ++ [(r.implementation, r)]) := by
  intro reg r hser
  constructor
  · intro hdup
    simp [Serializer.register, hser, hdup]
  · intro hfresh htag
    simp [Serializer.register, hser, hfresh, htag]

/-- Witness for C7's amended claim: the duplicate-class case on
`gaussSchema` itself and the duplicate-tag case on `clashSchema`. -/
theorem register_duplicate_contract_witness :
    Serializer.register oneEntryRegistry gaussSchema
      = (oneEntryRegistry, some .duplicateClass) ∧
    (Serializer.register oneEntryRegistry clashSchema).1.constructor_repr
      = oneEntryRegistry.constructor_repr ++ [("CauchyImpl", clashSchema)] :=
  ⟨(register_duplicate_contract oneEntryRegistry gaussSchema (by decide)).1
      (by decide),
    ((register_duplicate_contract oneEntryRegistry clashSchema (by decide)).2
      (by decide) (by decide)).2.2⟩

/-- A minimal Gaussian-named model used to expose the key-collision
behaviour of `to_hs3`. -/
def gaussModel : Model :=
  { name := "Gauss",
    reprJ := .jobj (.fcons "type" (.jstr "Gauss") .fnil),
    params := [],
    obs := [],
    spaceFields := fun _ => .fnil }

def collisionInput : List Model := [gaussModel, gaussModel, gaussModel]

/-- **C5 (failing input).** `pdf_number` at line 269 is the range object
`range(len(pdfs))`, not a per-model index, so every later model whose
name collides is renamed to the same key `f"{name}_{pdf_number}"`
(`"Gauss_range(0, 3)"` here).  With three models named `Gauss`, the
second and third both map to that key and the third silently overwrites
the second: the `pdfs` section ends with two entries for three input
models, contradicting the intended unique index suffix. -/
theorem to_hs3_collision_overwrites :
    Serializer.to_hs3 (.several collisionInput)
      = .ok { metadata := metadataJ,
              pdfs := .jobj (.fcons "Gauss" gaussModel.reprJ
                (.fcons "Gauss_range(0, 3)" gaussModel.reprJ .fnil)),
              vars := .fnil } ∧
    collisionInput.length = 3 :=
  ⟨rfl, rfl⟩

/-! Lemmas for the variable-collection walk of `to_hs3` (claim C3). -/

theorem foldl_hasKey_mono {α : Type} (step : JFields → α → JFields)
    (hm : ∀ (acc : JFields) (a : α) (k : String),
      acc.hasKey k = true → (step acc a).hasKey k = true) :
    ∀ (l : List α) (acc : JFields) (k : String),
      acc.hasKey k = true → (l.foldl step acc).hasKey k = true
  | [], _, _, h => h
  | a :: l, acc, k, h =>
    foldl_hasKey_mono step hm l (step acc a) k (hm acc a k h)

theorem foldl_keys_nodup {α : Type} (step : JFields → α → JFields)
    (hn : ∀ (acc : JFields) (a : α), acc.keys.Nodup → (step acc a).keys.Nodup) :
    ∀ (l : List α) (acc : JFields), acc.keys.Nodup → (l.foldl step acc).keys.Nodup
  | [], _, h => h
  | a :: l, acc, h => foldl_keys_nodup step hn l (step acc a) (hn acc a h)

theorem paramStep_hasKey_mono (acc : JFields) (p : Param) (k : String)
    (h : acc.hasKey k = true) : (paramStep acc p).hasKey k = true := by
  unfold paramStep
  by_cases hc : p.isComposed <;>
    simp [hc, h, JFields.hasKey_addIfAbsent_mono _ _ _ _ h]

theorem paramStep_keys_nodup (acc : JFields) (p : Param)
    (h : acc.keys.Nodup) : (paramStep acc p).keys.Nodup := by
  unfold paramStep
  by_cases hc : p.isComposed <;> simp [hc, h, JFields.nodup_addIfAbsent _ _ _ h]

theorem spaceStep_hasKey_mono (m : Model) (acc : JFields) (ob : String)
    (k : String) (h : acc.hasKey k = true) :
    (spaceStep m acc ob).hasKey k = true :=
  JFields.hasKey_addIfAbsent_mono _ _ _ _ h

theorem spaceStep_keys_nodup (m : Model) (acc : JFields) (ob : String)
    (h : acc.keys.Nodup) : (spaceStep m acc ob).keys.Nodup :=
  JFields.nodup_addIfAbsent _ _ _ h

theorem addParams_hasKey_mono (ps : List Param) (acc : JFields) (k : String)
    (h : acc.hasKey k = true) : (addParams acc ps).hasKey k = true :=
  foldl_hasKey_mono paramStep paramStep_hasKey_mono ps acc k h

theorem addSpaces_hasKey_mono (m : Model) (acc : JFields) (k : String)
    (h : acc.hasKey k = true) : (addSpaces acc m).hasKey k = true :=
  foldl_hasKey_mono (spaceStep m) (spaceStep_hasKey_mono m) m.obs acc k h

theorem varStep_hasKey_mono (acc : JFields) (m : Model) (k : String)
    (h : acc.hasKey k = true) : (varStep acc m).hasKey k = true :=
  addSpaces_hasKey_mono m _ k (addParams_hasKey_mono m.params acc k h)

theorem varStep_keys_nodup (acc : JFields) (m : Model)
    (h : acc.keys.Nodup) : (varStep acc m).keys.Nodup :=
  foldl_keys_nodup (spaceStep m) (spaceStep_keys_nodup m) m.obs _
    (foldl_keys_nodup paramStep paramStep_keys_nodup m.params acc h)

theorem addParams_hasKey_of_mem : ∀ (ps : List Param) (acc : JFields) (p : Param),
    p ∈ ps → p.isComposed = false → (addParams acc ps).hasKey p.name = true
  | [], _, _, h, _ => absurd h (List.not_mem_nil _)
  | q :: ps, acc, p, h, hc => by
    rcases List.mem_cons.mp h with h | h
    · subst h
      have h1 : (paramStep acc p).hasKey p.name = true := by
        simp [paramStep, hc, JFields.hasKey_addIfAbsent_self]
      exact foldl_hasKey_mono paramStep paramStep_hasKey_mono ps _ _ h1
    · exact addParams_hasKey_of_mem ps (paramStep acc q) p h hc

theorem foldl_varStep_hasKey : ∀ (ms : List Model) (acc : JFields) (m : Model)
    (p : Param), m ∈ ms → p ∈ m.params → p.isComposed = false →
    (ms.foldl varStep acc).hasKey p.name = true
  | [], _, _, _, hm, _, _ => absurd hm (List.not_mem_nil _)
  | m0 :: ms, acc, m, p, hm, hp, hc => by
    rcases List.mem_cons.mp hm with h | h
    · subst h
      have h1 : (varStep acc m).hasKey p.name = true :=
        addSpaces_hasKey_mono m _ _ (addParams_hasKey_of_mem m.params acc p hp hc)
      exact foldl_hasKey_mono varStep varStep_hasKey_mono ms _ _ h1
    · exact foldl_varStep_hasKey ms (varStep acc m0) m p h hp hc

theorem foldl_pdfStep_snd (total : Nat) : ∀ (ms : List Model)
    (acc : JFields × JFields),
    (ms.foldl (pdfStep total) acc).2 = ms.foldl varStep acc.2
  | [], _ => rfl
  | m :: ms, acc => by
    rw [List.foldl_cons, List.foldl_cons, foldl_pdfStep_snd total ms]
    rfl

theorem assemble_vars (ms : List Model) :
    (assemble ms).vars = ms.foldl varStep .fnil :=
  foldl_pdfStep_snd ms.length ms (.fnil, .fnil)

/-- The forward collapse of one independent parameter's inlined dict:
an independent parameter representation exposes `name`/`min`/`max` with
its own name stored under `"name"` and carries no `"value_fn"`, so the
generic-parameter pass rewrites the whole dict to the bare name string,
and the constant-parameter pass leaves that string alone. -/
theorem param_dict_collapses (p : Param)
    (hname : p.fields.lookup "name" = some (.jstr p.name))
    (hmin : p.fields.hasKey "min" = true)
    (hmax : p.fields.hasKey "max" = true)
    (hnofn : p.fields.hasKey "value_fn" = false) :
    replace_matching (.jobj p.fields) replaceForward1 = .jstr p.name := by
  obtain ⟨vmin, hvmin⟩ := Option.isSome_iff_exists.mp
    (by rw [JFields.lookup_isSome]; exact hmin)
  obtain ⟨vmax, hvmax⟩ := Option.isSome_iff_exists.mp
    (by rw [JFields.lookup_isSome]; exact hmax)
  have hpm : patMatch p.fields parameterPattern = true := by
    simp [patMatch, parameterPattern, hname, hvmin, hvmax]
  have hem : elements_match (.jobj p.fields) replaceForward1
      = some (nameIfNotComposed (.jobj p.fields)) :=
    elements_match_first p.fields parameterPattern nameIfNotComposed [] hpm
  rw [replace_matching, hem]
  simp [nameIfNotComposed, hnofn, hname]

/-- **C3.** When several models serialized in one `to_hs3` call share a
non-composed parameter, the output `variables` section holds exactly one
entry under that parameter's name, and the forward normalization pass
rewrites the parameter's inlined dict -- wherever it occurs in `pdfs` --
to the same bare name string. -/
theorem to_hs3_shared_param_once :
    ∀ (ms : List Model) (env : Envelope) (m : Model) (p : Param),
      Serializer.to_hs3 (.several ms) = .ok env →
      m ∈ ms → p ∈ m.params → p.isComposed = false →
      env.vars.keys.count p.name = 1 ∧
      (p.fields.lookup "name" = some (.jstr p.name) →
        p.fields.hasKey "min" = true → p.fields.hasKey "max" = true →
        p.fields.hasKey "value_fn" = false →
        replace_matching (.jobj p.fields) replaceForward1 = .jstr p.name ∧
        replace_matching (.jstr p.name) replaceForward2 = .jstr p.name) := by
  intro ms env m p hok hm hp hc
  have henv : env = Serializer.post_serialize (assemble ms) := by
    have : Except.ok (ε := SerError) (Serializer.post_serialize (assemble ms))
        = .ok env := hok
    exact (Except.ok.injEq _ _ ▸ congrArg id this).symm
  subst henv
  constructor
  · have hvars : (Serializer.post_serialize (assemble ms)).vars
        = ms.foldl varStep .fnil := assemble_vars ms
    rw [hvars]
    have hnodup : (ms.foldl varStep JFields.fnil).keys.Nodup :=
      foldl_keys_nodup varStep varStep_keys_nodup ms .fnil (by simp [JFields.keys])
    have hmem : p.name ∈ (ms.foldl varStep JFields.fnil).keys :=
      (JFields.hasKey_iff_mem _ _).mp (foldl_varStep_hasKey ms .fnil m p hm hp hc)
    exact List.count_eq_one_of_mem hnodup hmem
  · intro hname hmin hmax hnofn
    exact ⟨param_dict_collapses p hname hmin hmax hnofn, rfl⟩

/-- The shared `mu` parameter and a Gaussian model carrying it, used to
witness the deduplication claim with two model entries sharing one
parameter object. -/
def muParam : Param :=
  { name := "mu", fields := muFields, isComposed := false }

def gaussWithMu : Model :=
  { name := "Gauss",
    reprJ := .jobj (.fcons "type" (.jstr "Gauss")
      (.fcons "mu" (.jobj muFields) .fnil)),
    params := [muParam],
    obs := ["obs"],
    spaceFields := fun _ => obsFields }

/-- Witness for C3: two models sharing `muParam` yield exactly one
`variables` entry named `mu`, and the shared inlined dict collapses to
the string `"mu"` in both passes. -/
theorem to_hs3_shared_param_once_witness :
    (Serializer.post_serialize (assemble [gaussWithMu, gaussWithMu])).vars.keys.count
      "mu" = 1 ∧
    replace_matching (.jobj muFields) replaceForward1 = .jstr "mu" ∧
    replace_matching (.jstr "mu") replaceForward2 = .jstr "mu" := by
  have h := to_hs3_shared_param_once [gaussWithMu, gaussWithMu]
    (Serializer.post_serialize (assemble [gaussWithMu, gaussWithMu]))
    gaussWithMu muParam rfl (by simp) (by simp [gaussWithMu]) rfl
  have h2 := h.2 (by decide) (by decide) (by decide) (by decide)
  exact ⟨h.1, h2.1, h2.2⟩
